import Mathlib

set_option maxRecDepth 8192

/-!
Shallow embedding of the ICAEW page-interaction behavior scripts
(`browsertrix-crawler files and scripts/icaew-com-behaviors-v3.js`, first
document, and the legacy `icaew-com-behaviors.js`, plus the URL-tracking
pagination variant embedded in the repository README).

Conventions of the embedding:
* A DOM element is a record of the attributes the scripts read; the field
  `eid` stands for JavaScript object identity (two distinct DOM nodes always
  carry distinct `eid`s), so structural equality of `Elem` models `Set`
  identity dedup in the scripts.
* Time is in milliseconds; `waitUntilNode` polls on an idealized exact 100 ms
  cadence, so a timeout of `t` ms yields `(t + 99) / 100` polls.
* A thrown JavaScript exception is modelled as `Except.error`; a caught
  exception is a `match` on that value at the call site that has the
  `try`/`catch`.
* The live DOM between suspension points is modelled by functions from the
  loop/poll index to query results: the engine re-queries the DOM each
  iteration, and an arbitrary function models arbitrary page-script mutation
  between iterations.  A static fixture is a constant function.
-/

/-- A DOM element as observed by the behavior scripts.  `eid` models
JavaScript object identity; `clickThrows` records whether calling
`element.click()` on this node throws. -/
structure Elem where
  eid : Nat
  display : String
  visibility : String
  opacity : String
  classes : List String
  attrs : List (String × String)
  disabledProp : Bool
  inViewport : Bool
  offsetParentNonNull : Bool
  clickThrows : Bool
  deriving DecidableEq

/-- classList.contains. -/
def Elem.classContains (e : Elem) (c : String) : Bool := e.classes.contains c

/-- hasAttribute. -/
def Elem.hasAttr (e : Elem) (k : String) : Bool := e.attrs.any (fun p => p.1 == k)

/-- getAttribute: the first matching attribute value, null when absent. -/
def Elem.getAttr (e : Elem) (k : String) : Option String :=
  (e.attrs.find? (fun p => p.1 == k)).map (fun p => p.2)

/-- The disabled check of the v3 filter step (v3 lines 119-122):
disabled class, disabled attribute, aria-disabled="true", or the
`disabled` property. -/
def filterIsDisabled (b : Elem) : Bool :=
  b.classContains "disabled" || b.hasAttr "disabled" ||
    b.getAttr "aria-disabled" == some "true" || b.disabledProp

/-- isVisible of the v3 filter step (v3 line 131). -/
def styleIsVisible (b : Elem) : Bool :=
  b.display != "none" && b.visibility != "hidden"

/-- isClickable of the v3 filter step (v3 line 132). -/
def filterIsClickable (b : Elem) : Bool :=
  styleIsVisible b && (b.inViewport || b.offsetParentNonNull)

/-- The effective condition under which the v3 filter step clicks a button:
not disabled, and clickable. -/
def filterClickPred (b : Elem) : Bool := !filterIsDisabled b && filterIsClickable b

/-- The disabled check of the v3 pagination loop (v3 lines 188-190): unlike
the filter step it does not consult the `disabled` property. -/
def pagIsDisabled (b : Elem) : Bool :=
  b.classContains "disabled" || b.hasAttr "disabled" ||
    b.getAttr "aria-disabled" == some "true"

/-- The visible-and-clickable condition of the v3 pagination loop
(v3 lines 200-201). -/
def pagClickCond (b : Elem) : Bool :=
  b.display != "none" && b.visibility != "hidden" &&
    (b.inViewport || b.offsetParentNonNull)

/-- The effective condition under which the pagination loop clicks a button. -/
def pagClickPred (b : Elem) : Bool := !pagIsDisabled b && pagClickCond b

/-- Modelled from the spec (section 4.2, claim C5): the clickability contract
as the spec words it, including the opacity conjunct.  Written from the
spec's words for comparison with the code's checks; it is not code of the
repository. -/
def specIsClickable (b : Elem) : Bool :=
  b.display != "none" && b.visibility != "hidden" && b.opacity != "0" &&
    !(b.disabledProp || b.getAttr "aria-disabled" == some "true" ||
      b.classContains "disabled") &&
    (b.offsetParentNonNull || b.inViewport)

/-- The amended clickability statement: as the claim, but without the opacity
conjunct (the code never reads opacity) and with the disabled attribute
included among the disabled signals, as the code has it. -/
def amendedIsClickable (b : Elem) : Bool :=
  b.display != "none" && b.visibility != "hidden" &&
    !(b.disabledProp || b.getAttr "aria-disabled" == some "true" ||
      b.classContains "disabled" || b.hasAttr "disabled") &&
    (b.inViewport || b.offsetParentNonNull)

/-- The amended clickability statement for the pagination check: as
`amendedIsClickable` but without the disabled-property conjunct, which the
pagination loop (v3 lines 188-201) does not read. -/
def amendedPagClickable (b : Elem) : Bool :=
  b.display != "none" && b.visibility != "hidden" &&
    !(b.getAttr "aria-disabled" == some "true" ||
      b.classContains "disabled" || b.hasAttr "disabled") &&
    (b.inViewport || b.offsetParentNonNull)

/-- The polling loop inside waitUntilNode (v3 lines 23-31).  `sel` is the
selector function evaluated against the DOM at absolute time `t`; the fuel
argument is the number of polls remaining before the deadline. -/
def waitLoop (sel : Nat → Option Elem) (t : Nat) : Nat → Except String Elem
  | 0 => Except.error "Timeout waiting for element"
  | n + 1 =>
    match sel t with
    | some e => Except.ok e
    | none => waitLoop sel (t + 100) n

/-- waitUntilNode (v3 lines 23-31): polls every 100 ms from start time `t0`
until `timeout` ms have elapsed; on timeout it THROWS
(`Except.error "Timeout waiting for element"`), it does not return an
absent value. -/
def waitUntilNode (sel : Nat → Option Elem) (timeout t0 : Nat) : Except String Elem :=
  waitLoop sel t0 ((timeout + 99) / 100)

/-- Progress events yielded by the v3 generator, in structured form.  The
constructor `chartClick` is never produced by the embedding because the v3
`run` has no chart-menu step; it exists so that the absence of chart-menu
actions is expressible. -/
inductive Ev where
  | cookie : Ev
  | banner : Ev
  | survey : Ev
  | filterClick : Nat → Nat → Ev
  | nextClick : Nat → Nat → Nat → Ev
  | moreClick : Nat → Ev
  | chartClick : Nat → Ev
  | stat : Ev
  deriving DecidableEq

/-- The literal message string the v3 script yields for each event
(`chartClick` has no message: the v3 script never emits one). -/
def Ev.msg : Ev → String
  | Ev.cookie => "Clicked cookie consent button"
  | Ev.banner => "Clicked banner cookie"
  | Ev.survey => "Clicked survey toggle"
  | Ev.filterClick i n =>
      "Clicked filter button " ++ toString i ++ "/" ++ toString n
  | Ev.nextClick i n it =>
      "Clicked \"Next\" button (" ++ toString i ++ "/" ++ toString n ++
        ", iteration " ++ toString it ++ ")"
  | Ev.moreClick i => "Clicked more-link (iteration " ++ toString i ++ ")"
  | Ev.chartClick _ => ""
  | Ev.stat => "icaew-stat"

/-- Which step of the v3 run an event belongs to, in source order. -/
def stepIdx : Ev → Nat
  | Ev.cookie => 0
  | Ev.banner => 1
  | Ev.survey => 2
  | Ev.filterClick _ _ => 3
  | Ev.nextClick _ _ _ => 4
  | Ev.moreClick _ => 5
  | Ev.chartClick _ => 6
  | Ev.stat => 7

/-- The step-order relation on events: `a` belongs to a step no later than
`b`'s in the v3 source order. -/
def stepLe (a b : Ev) : Prop := stepIdx a ≤ stepIdx b

/-- Recognizer for filter-step click events. -/
def isFilterClickEv : Ev → Bool
  | Ev.filterClick _ _ => true
  | _ => false

/-- Recognizer for pagination click events. -/
def isNextClickEv : Ev → Bool
  | Ev.nextClick _ _ _ => true
  | _ => false

/-- Recognizer for chart-menu click events. -/
def isChartClickEv : Ev → Bool
  | Ev.chartClick _ => true
  | _ => false

/-- Boolean ok-test on an Except value (true iff no exception was thrown). -/
def exOk {α β : Type} : Except α β → Bool
  | Except.ok _ => true
  | Except.error _ => false

/-- The cookie-consent step (v3 lines 50-62): wait up to 5000 ms, click,
yield; both a locator timeout and a click exception are caught by the
step's try/catch, so the step only ever contributes its own event. -/
def cookieStep (sel : Nat → Option Elem) (t0 : Nat) : List Ev :=
  match waitUntilNode sel 5000 t0 with
  | Except.error _ => []
  | Except.ok e => if e.clickThrows then [] else [Ev.cookie]

/-- The banner-cookie step (v3 lines 65-77), timeout 3000 ms. -/
def bannerStep (sel : Nat → Option Elem) (t0 : Nat) : List Ev :=
  match waitUntilNode sel 3000 t0 with
  | Except.error _ => []
  | Except.ok e => if e.clickThrows then [] else [Ev.banner]

/-- The survey-toggle step (v3 lines 80-92), timeout 3000 ms. -/
def surveyStep (sel : Nat → Option Elem) (t0 : Nat) : List Ev :=
  match waitUntilNode sel 3000 t0 with
  | Except.error _ => []
  | Except.ok e => if e.clickThrows then [] else [Ev.survey]

/-- The for-loop over filter buttons (v3 lines 115-147); `n` is the total
button count and `i` the current index.  Returns the yielded events and the
buttons actually clicked.  A click exception aborts the remaining buttons
(it is caught by the surrounding try/catch of the filter step). -/
def filterLoopGo (n : Nat) : List Elem → Nat → List Ev × List Elem
  | [], _ => ([], [])
  | b :: rest, i =>
    if filterIsDisabled b then filterLoopGo n rest (i + 1)
    else if filterIsClickable b then
      if b.clickThrows then ([], [])
      else
        let r := filterLoopGo n rest (i + 1)
        (Ev.filterClick (i + 1) n :: r.1, b :: r.2)
    else filterLoopGo n rest (i + 1)

/-- The dynamic-filter step (v3 lines 95-152): wait for the filter parent,
then click each button of the panel once. -/
def filterStep (parentSel : Nat → Option Elem) (buttons : List Elem) (t0 : Nat) :
    List Ev × List Elem :=
  match waitUntilNode parentSel 5000 t0 with
  | Except.error _ => ([], [])
  | Except.ok _ => filterLoopGo buttons.length buttons 0

/-- The results of the three overlapping "Next"-button selectors
(v3 lines 156-160) on one pagination iteration. -/
structure TriQ where
  q1 : List Elem
  q2 : List Elem
  q3 : List Elem
  deriving DecidableEq

/-- The concatenation nextButtons of the three query results (v3 167-170). -/
def TriQ.allBtns (t : TriQ) : List Elem := t.q1 ++ t.q2 ++ t.q3

/-- Array.from(new Set(list)) (v3 line 172): keep the first occurrence of
each element, in insertion order.  `seen` is the accumulator of elements
already kept. -/
def dedupAux (seen : List Elem) : List Elem → List Elem
  | [] => []
  | e :: rest =>
    if e ∈ seen then dedupAux seen rest
    else e :: dedupAux (e :: seen) rest

/-- uniqueNextButtons (v3 lines 166-172). -/
def uniqueNextButtons (t : TriQ) : List Elem := dedupAux [] t.allBtns

/-- The inner for-loop of the pagination traversal (v3 lines 183-210) over
the deduplicated button list, threading `clickedAny` and `allDisabled`.  A
click exception propagates (there is no try/catch around this loop),
carrying the events yielded and elements clicked so far. -/
def pagInner (iter n : Nat) :
    List Elem → Nat → Bool → Bool →
    Except (List Ev × List Elem) (List Ev × List Elem × Bool × Bool)
  | [], _, ca, ad => Except.ok ([], [], ca, ad)
  | b :: rest, i, ca, ad =>
    if pagIsDisabled b then pagInner iter n rest (i + 1) ca ad
    else if pagClickCond b then
      if b.clickThrows then Except.error ([], [])
      else
        match pagInner iter n rest (i + 1) true false with
        | Except.ok (evs, cks, ca2, ad2) =>
            Except.ok (Ev.nextClick (i + 1) n (iter + 1) :: evs, b :: cks, ca2, ad2)
        | Except.error (evs, cks) =>
            Except.error (Ev.nextClick (i + 1) n (iter + 1) :: evs, b :: cks)
    else pagInner iter n rest (i + 1) ca false

/-- Events yielded by one pagination inner pass, throw or no throw. -/
def innerEvs : Except (List Ev × List Elem) (List Ev × List Elem × Bool × Bool) → List Ev
  | Except.ok (evs, _, _, _) => evs
  | Except.error (evs, _) => evs

/-- Elements clicked by one pagination inner pass, throw or no throw. -/
def innerClicks : Except (List Ev × List Elem) (List Ev × List Elem × Bool × Bool) → List Elem
  | Except.ok (_, cks, _, _) => cks
  | Except.error (_, cks) => cks

/-- Outcome of a bounded loop: events yielded, elements clicked, loop bodies
entered, and whether a click exception escaped. -/
structure LoopOut where
  evs : List Ev
  clicks : List Elem
  iters : Nat
  threw : Bool
  deriving DecidableEq

/-- The outer pagination while-loop (v3 lines 161-223).  `q k` is what the
three selectors return on iteration `k` (the DOM as mutated by the page
between iterations); the fuel argument is `maxIterations - iteration`, 200
at entry. -/
def pagLoop (q : Nat → TriQ) : Nat → Nat → LoopOut
  | 0, _ => ⟨[], [], 0, false⟩
  | fuel + 1, iter =>
    let u := uniqueNextButtons (q iter)
    if u.isEmpty then ⟨[], [], 1, false⟩
    else
      match pagInner iter u.length u 0 false true with
      | Except.error (evs, cks) => ⟨evs, cks, 1, true⟩
      | Except.ok (evs, cks, clickedAny, allDisabled) =>
        if allDisabled then ⟨evs, cks, 1, false⟩
        else if !clickedAny then ⟨evs, cks, 1, false⟩
        else
          let r := pagLoop q fuel (iter + 1)
          ⟨evs ++ r.evs, cks ++ r.clicks, 1 + r.iters, r.threw⟩

/-- The elements clicked during a single iteration of the pagination loop
whose query result is `t` (used to state per-iteration dedup). -/
def pagIterClicks (t : TriQ) (iter : Nat) : List Elem :=
  let u := uniqueNextButtons t
  innerClicks (pagInner iter u.length u 0 false true)

/-- The more-link while-loop (v3 lines 226-248).  `sel k` is the
querySelector result after `k` completed clicks; fuel is
`maxMoreLinkIterations - moreLinkIterations`, 100 at entry.  A click
exception propagates (no try/catch). -/
def moreLoop (sel : Nat → Option Elem) : Nat → Nat → LoopOut
  | 0, _ => ⟨[], [], 0, false⟩
  | fuel + 1, k =>
    match sel k with
    | none => ⟨[], [], 0, false⟩
    | some e =>
      if styleIsVisible e then
        if e.clickThrows then ⟨[], [], 0, true⟩
        else
          let r := moreLoop sel fuel (k + 1)
          ⟨Ev.moreClick (k + 1) :: r.evs, e :: r.clicks, 1 + r.iters, r.threw⟩
      else ⟨[], [], 0, false⟩

/-- A page fixture as the v3 run observes it: the waited-for elements as
functions of absolute poll time, the filter panel's buttons, the pagination
query results per iteration, the more-link per click count, and any
chart-menu elements present in the DOM (which the v3 run never queries). -/
structure Page where
  cookieButton : Nat → Option Elem
  bannerCookie : Nat → Option Elem
  surveyToggle : Nat → Option Elem
  filterParent : Nat → Option Elem
  filterButtons : List Elem
  nextQueries : Nat → TriQ
  moreLink : Nat → Option Elem
  chartMenus : List Elem

/-- The v3 `run` generator (v3 lines 17-251): the four guarded steps in
source order, then the pagination loop, then the more-link loop, then the
terminal sentinel.  `t1..t4` are the wall-clock times at which the four
waitUntilNode calls start.  Returns the yielded events and whether the
generator completed normally (false when a pagination or more-link click
exception escaped, in which case the sentinel is never yielded). -/
def runP (p : Page) (t1 t2 t3 t4 : Nat) : List Ev × Bool :=
  let pre := cookieStep p.cookieButton t1 ++ bannerStep p.bannerCookie t2 ++
    surveyStep p.surveyToggle t3 ++ (filterStep p.filterParent p.filterButtons t4).1
  let pr := pagLoop p.nextQueries 200 0
  if pr.threw then (pre ++ pr.evs, false)
  else
    let mr := moreLoop p.moreLink 100 0
    if mr.threw then (pre ++ pr.evs ++ mr.evs, false)
    else (pre ++ pr.evs ++ mr.evs ++ [Ev.stat], true)

/-- One setInterval tick of the legacy clickUntilHidden
(icaew-com-behaviors.js lines 85-98): true when the element is present and
its display is not "none" (the element is clicked and the interval keeps
running); false when the interval clears itself. -/
def cuhTick (sel : Nat → Option Elem) (k : Nat) : Bool :=
  match sel k with
  | some e => e.display != "none"
  | none => false

/-- State of the legacy clickUntilHidden after `n` interval ticks: clicks
performed so far and whether the interval is still active.  The loop has no
iteration cap of any kind. -/
def cuhRun (sel : Nat → Option Elem) : Nat → Nat × Bool
  | 0 => (0, true)
  | n + 1 =>
    match cuhRun sel n with
    | (c, true) => if cuhTick sel n then (c + 1, true) else (c, false)
    | (c, false) => (c, false)

/-- The inner pass of the URL-tracking pagination variant embedded in the
repository README (clickedUrls Set, lines 346-379 of that variant): skip an
element whose href was already clicked, click the rest that are in the
viewport or have an offsetParent, recording their hrefs.  Returns the
clicked elements, the updated clicked-URL set and the clickedAny flag. -/
def hrefInner (seen : List String) : List Elem → List Elem × List String × Bool
  | [] => ([], seen, false)
  | e :: rest =>
    let skip : Bool := match e.getAttr "href" with
      | some u => decide (u ∈ seen)
      | none => false
    if skip then hrefInner seen rest
    else if e.inViewport || e.offsetParentNonNull then
      let seen2 := match e.getAttr "href" with
        | some u => u :: seen
        | none => seen
      let r := hrefInner seen2 rest
      (e :: r.1, r.2.1, true)
    else hrefInner seen rest

/-- The outer while-loop of the URL-tracking pagination variant: fuel is
`maxIterations - iteration` (50 at entry); exits when the query is empty or
no element was clicked in a pass.  Returns all clicked elements and the
number of loop bodies entered. -/
def hrefLoop (q : Nat → List Elem) (seen : List String) : Nat → Nat → List Elem × Nat
  | 0, _ => ([], 0)
  | fuel + 1, iter =>
    let es := q iter
    if es.isEmpty then ([], 1)
    else
      let r := hrefInner seen es
      if r.2.2 then
        let rec2 := hrefLoop q r.2.1 fuel (iter + 1)
        (r.1 ++ rec2.1, 1 + rec2.2)
      else (r.1, 1)

/-- The number of enabled, clickable "Next" buttons the v3 pagination loop
sees on iteration `k` (the quantity the spec's stagnation guard would
compare across consecutive iterations). -/
def clickableNextCount (q : Nat → TriQ) (k : Nat) : Nat :=
  ((uniqueNextButtons (q k)).filter pagClickPred).length

/-- No element returned by the pagination selectors ever throws on click. -/
def NoPagThrow (p : Page) : Prop :=
  ∀ k b, b ∈ (p.nextQueries k).allBtns → b.clickThrows = false

/-- The more-link element never throws on click. -/
def NoMoreThrow (p : Page) : Prop :=
  ∀ k e, p.moreLink k = some e → e.clickThrows = false

/-- The four waited-for selectors are time-invariant: a static page fixture. -/
def StaticWaits (p : Page) : Prop :=
  (∀ s t, p.cookieButton s = p.cookieButton t) ∧
  (∀ s t, p.bannerCookie s = p.bannerCookie t) ∧
  (∀ s t, p.surveyToggle s = p.surveyToggle t) ∧
  (∀ s t, p.filterParent s = p.filterParent t)

/-- A plain visible, enabled, well-behaved element with identity `n`. -/
def okElem (n : Nat) : Elem :=
  ⟨n, "block", "visible", "1", [], [], false, true, true, false⟩

/-- A single-page-app "Next" control: enabled, visible, clickable, with an
href that never changes across re-queries. -/
def spaBtn : Elem :=
  ⟨100, "block", "visible", "1", ["page", "next"], [("href", "/search?page=2")],
    false, true, true, false⟩

/-- A page whose pagination query returns the same never-changing "Next"
control on every iteration; everything else is absent. -/
def spaPage : Page :=
  ⟨fun _ => none, fun _ => none, fun _ => none, fun _ => none, [],
    fun _ => ⟨[spaBtn], [], []⟩, fun _ => none, []⟩

/-- A second never-changing, enabled, visible "Next" control (distinct DOM
node), for the stagnation fixture. -/
def stagBtn : Elem :=
  ⟨101, "block", "visible", "1", ["page", "next"], [], false, true, true, false⟩

/-- A page on which the clickable-"Next" count is 1 on every iteration:
perfect stagnation, clickable elements always present. -/
def stagPage : Page :=
  ⟨fun _ => none, fun _ => none, fun _ => none, fun _ => none, [],
    fun _ => ⟨[stagBtn], [], []⟩, fun _ => none, []⟩

/-- Checks that the clickable-"Next" count on `stagPage` is unchanged across
every pair of consecutive iterations the loop can reach. -/
def stagUnchanged : Bool :=
  (List.range 200).all (fun k =>
    clickableNextCount stagPage.nextQueries k ==
      clickableNextCount stagPage.nextQueries (k + 1))

/-- An enabled, visible pagination control whose click() throws. -/
def throwNextBtn : Elem :=
  ⟨102, "block", "visible", "1", [], [], false, true, true, true⟩

/-- A page whose only interactive content is a pagination control that
throws when clicked. -/
def throwPage : Page :=
  ⟨fun _ => none, fun _ => none, fun _ => none, fun _ => none, [],
    fun _ => ⟨[throwNextBtn], [], []⟩, fun _ => none, []⟩

/-- A fully transparent element (opacity "0") that passes every check the
code actually performs. -/
def ghostElem : Elem :=
  ⟨103, "block", "visible", "0", [], [], false, true, true, false⟩

/-- A more-link-style element that is always present and shown. -/
def stickyLink : Elem :=
  ⟨104, "block", "visible", "1", [], [("href", "#")], false, true, true, false⟩

/-- A chart-menu button present in the DOM. -/
def chartBtn : Elem :=
  ⟨105, "block", "visible", "1", ["highcharts-menu-item"], [], false, true, true, false⟩

/-- The filter panel parent element. -/
def filterParentEl : Elem := okElem 4

/-- A clickable filter button. -/
def fBtn1 : Elem := okElem 5

/-- An enabled, clickable "Next" link for the rich fixture. -/
def nextBtn : Elem :=
  ⟨6, "block", "visible", "1", ["page", "next"], [("href", "/p2")], false, true, true, false⟩

/-- The same pagination widget once it has become disabled. -/
def nextBtnOff : Elem :=
  ⟨7, "block", "visible", "1", ["page", "next", "disabled"], [], false, true, true, false⟩

/-- A visible more-link. -/
def moreEl : Elem := okElem 8

/-- The more-link once hidden (display none). -/
def moreElHidden : Elem :=
  ⟨9, "none", "visible", "1", [], [], false, false, false, false⟩

/-- A static fixture exercising every step of the v3 run: one click per
step, pagination disabled after page 2, more-link hidden after one click,
and a chart-menu button present in the DOM. -/
def richPage : Page :=
  ⟨fun _ => some (okElem 1), fun _ => some (okElem 2), fun _ => some (okElem 3),
    fun _ => some filterParentEl, [fBtn1],
    fun k => if k = 0 then ⟨[nextBtn], [], []⟩ else ⟨[nextBtnOff], [], []⟩,
    fun k => if k = 0 then some moreEl else some moreElHidden, [chartBtn]⟩

/-- A clickable filter button whose click() throws. -/
def throwFilterBtn : Elem :=
  ⟨110, "block", "visible", "1", [], [], false, true, true, true⟩

/-- A page whose only interactive content is a filter button that throws
when clicked: the exception is caught by the filter step's try/catch. -/
def isoPage : Page :=
  ⟨fun _ => none, fun _ => none, fun _ => none, fun _ => some filterParentEl,
    [throwFilterBtn], fun _ => ⟨[], [], []⟩, fun _ => none, []⟩

/-- A completely empty page: every selector comes back empty. -/
def plainPage : Page :=
  ⟨fun _ => none, fun _ => none, fun _ => none, fun _ => none, [],
    fun _ => ⟨[], [], []⟩, fun _ => none, []⟩

/-- A filter button carrying the "disabled" style class. -/
def disBtn : Elem :=
  ⟨111, "block", "visible", "1", ["disabled"], [], false, true, true, false⟩

/-- A second clickable filter button. -/
def fBtn2 : Elem := okElem 112

/-- A page with a filter panel of three buttons, one of them disabled. -/
def filterPage : Page :=
  ⟨fun _ => none, fun _ => none, fun _ => none, fun _ => some filterParentEl,
    [fBtn1, disBtn, fBtn2], fun _ => ⟨[], [], []⟩, fun _ => none, []⟩

/-- A selector that never matches makes the polling loop time out, whatever
the start time and poll budget. -/
lemma waitLoop_allNone {sel : Nat → Option Elem} (h : ∀ t, sel t = none) :
    ∀ n t, waitLoop sel t n = Except.error "Timeout waiting for element" := by
  intro n
  induction n with
  | zero => intro t; rfl
  | succ m ih =>
    intro t
    rw [waitLoop, h t]
    exact ih (t + 100)

/-- A selector that matches at the first poll returns immediately. -/
lemma waitLoop_first {sel : Nat → Option Elem} {t : Nat} {e : Elem} {n : Nat}
    (hn : 0 < n) (h : sel t = some e) : waitLoop sel t n = Except.ok e := by
  cases n with
  | zero => exact absurd hn (by simp)
  | succ m => rw [waitLoop, h]

/-- On a time-invariant selector the polling loop's result does not depend
on when it starts. -/
lemma waitLoop_static {sel : Nat → Option Elem} (h : ∀ s t, sel s = sel t) :
    ∀ n s t, waitLoop sel s n = waitLoop sel t n := by
  intro n
  induction n with
  | zero => intro s t; rfl
  | succ m ih =>
    intro s t
    rw [waitLoop, waitLoop, h s t]
    cases sel t with
    | none => exact ih (s + 100) (t + 100)
    | some e => rfl

/-- Every event of the cookie step is the cookie event. -/
lemma cookieStep_idx (sel : Nat → Option Elem) (t : Nat) :
    ∀ e ∈ cookieStep sel t, stepIdx e = 0 := by
  intro e he
  simp only [cookieStep] at he
  rcases hw : waitUntilNode sel 5000 t with s | b <;> rw [hw] at he
  · simp at he
  · simp only [] at he
    split at he
    · simp at he
    · simp at he; subst he; rfl

/-- Every event of the banner step is the banner event. -/
lemma bannerStep_idx (sel : Nat → Option Elem) (t : Nat) :
    ∀ e ∈ bannerStep sel t, stepIdx e = 1 := by
  intro e he
  simp only [bannerStep] at he
  rcases hw : waitUntilNode sel 3000 t with s | b <;> rw [hw] at he
  · simp at he
  · simp only [] at he
    split at he
    · simp at he
    · simp at he; subst he; rfl

/-- Every event of the survey step is the survey event. -/
lemma surveyStep_idx (sel : Nat → Option Elem) (t : Nat) :
    ∀ e ∈ surveyStep sel t, stepIdx e = 2 := by
  intro e he
  simp only [surveyStep] at he
  rcases hw : waitUntilNode sel 3000 t with s | b <;> rw [hw] at he
  · simp at he
  · simp only [] at he
    split at he
    · simp at he
    · simp at he; subst he; rfl

/-- Every event of the filter-button loop is a filter-click event. -/
lemma filterLoopGo_idx (n : Nat) :
    ∀ (l : List Elem) (i : Nat), ∀ e ∈ (filterLoopGo n l i).1, stepIdx e = 3 := by
  intro l
  induction l with
  | nil => intro i e he; simp [filterLoopGo] at he
  | cons b rest ih =>
    intro i e he
    simp only [filterLoopGo] at he
    split at he
    · exact ih (i + 1) e he
    · split at he
      · split at he
        · simp at he
        · simp only [List.mem_cons] at he
          rcases he with he | he
          · subst he; rfl
          · exact ih (i + 1) e he
      · exact ih (i + 1) e he

/-- Every event of the filter step is a filter-click event. -/
lemma filterStep_idx (ps : Nat → Option Elem) (bs : List Elem) (t : Nat) :
    ∀ e ∈ (filterStep ps bs t).1, stepIdx e = 3 := by
  intro e he
  simp only [filterStep] at he
  rcases hw : waitUntilNode ps 5000 t with s | b <;> rw [hw] at he
  · simp at he
  · exact filterLoopGo_idx bs.length bs 0 e he

/-- When no filter button throws, the filter loop clicks exactly the buttons
satisfying the click condition, in order, and yields one event per click. -/
lemma filterLoopGo_noThrow (n : Nat) :
    ∀ (l : List Elem) (i : Nat), (∀ b ∈ l, b.clickThrows = false) →
      (filterLoopGo n l i).2 = l.filter filterClickPred ∧
      (filterLoopGo n l i).1.length = (l.filter filterClickPred).length := by
  intro l
  induction l with
  | nil => intro i _; simp [filterLoopGo]
  | cons b rest ih =>
    intro i h
    have hb : b.clickThrows = false := h b (List.mem_cons_self _ _)
    have hrest : ∀ x ∈ rest, x.clickThrows = false :=
      fun x hx => h x (List.mem_cons_of_mem _ hx)
    have hih := ih (i + 1) hrest
    by_cases hd : filterIsDisabled b
    · have hp : filterClickPred b = false := by simp [filterClickPred, hd]
      rw [filterLoopGo, if_pos hd]
      simpa [List.filter_cons, hp] using hih
    · by_cases hc : filterIsClickable b
      · have hp : filterClickPred b = true := by simp [filterClickPred, hd, hc]
        have hbf : ¬(b.clickThrows = true) := by simp [hb]
        rw [filterLoopGo, if_neg hd, if_pos hc, if_neg hbf]
        constructor
        · simp [List.filter_cons, hp, hih.1]
        · simp [List.filter_cons, hp, hih.2]
      · have hp : filterClickPred b = false := by simp [filterClickPred, hc]
        rw [filterLoopGo, if_neg hd, if_neg hc]
        simpa [List.filter_cons, hp] using hih

/-- Deduplication only returns elements from the input list. -/
lemma dedupAux_subset {a : Elem} :
    ∀ (l seen : List Elem), a ∈ dedupAux seen l → a ∈ l := by
  intro l
  induction l with
  | nil => intro seen h; simp [dedupAux] at h
  | cons e rest ih =>
    intro seen h
    simp only [dedupAux] at h
    split at h
    · exact List.mem_cons_of_mem _ (ih seen h)
    · simp only [List.mem_cons] at h
      rcases h with h | h
      · exact h ▸ List.mem_cons_self _ _
      · exact List.mem_cons_of_mem _ (ih (e :: seen) h)

/-- Deduplication never returns an element it has already seen. -/
lemma dedupAux_not_seen {a : Elem} :
    ∀ (l seen : List Elem), a ∈ dedupAux seen l → a ∉ seen := by
  intro l
  induction l with
  | nil => intro seen h; simp [dedupAux] at h
  | cons e rest ih =>
    intro seen h
    simp only [dedupAux] at h
    split at h
    · exact ih seen h
    · simp only [List.mem_cons] at h
      rcases h with h | h
      · subst h; assumption
      · intro ha
        exact ih (e :: seen) h (List.mem_cons_of_mem _ ha)

/-- The deduplicated button list has no duplicates. -/
lemma dedupAux_nodup : ∀ (l seen : List Elem), (dedupAux seen l).Nodup := by
  intro l
  induction l with
  | nil => intro seen; simp [dedupAux]
  | cons e rest ih =>
    intro seen
    simp only [dedupAux]
    split
    · exact ih seen
    · refine List.Nodup.cons (fun h => ?_) (ih (e :: seen))
      exact dedupAux_not_seen rest (e :: seen) h (List.mem_cons_self _ _)

/-- Deduplication keeps every input element that was not already seen. -/
lemma dedupAux_mem {a : Elem} :
    ∀ (l seen : List Elem), a ∈ l → a ∉ seen → a ∈ dedupAux seen l := by
  intro l
  induction l with
  | nil => intro seen h _; simp at h
  | cons e rest ih =>
    intro seen h hs
    simp only [List.mem_cons] at h
    simp only [dedupAux]
    split
    · rcases h with h | h
      · subst h; exact absurd (by assumption) hs
      · exact ih seen h hs
    · rcases h with h | h
      · exact h ▸ List.mem_cons_self _ _
      · by_cases he : a = e
        · exact he ▸ List.mem_cons_self _ _
        · refine List.mem_cons_of_mem _ (ih (e :: seen) h ?_)
          simp [he, hs]

/-- An event is a pagination click exactly when its step index is 4. -/
lemma isNext_iff_idx (e : Ev) : isNextClickEv e = true ↔ stepIdx e = 4 := by
  cases e <;> simp [isNextClickEv, stepIdx]

/-- An event is a filter click exactly when its step index is 3. -/
lemma isFilter_iff_idx (e : Ev) : isFilterClickEv e = true ↔ stepIdx e = 3 := by
  cases e <;> simp [isFilterClickEv, stepIdx]

/-- An event is a chart-menu click exactly when its step index is 6. -/
lemma isChart_iff_idx (e : Ev) : isChartClickEv e = true ↔ stepIdx e = 6 := by
  cases e <;> simp [isChartClickEv, stepIdx]

/-- A block whose events all sit at step index `c ≠ 4` has no pagination
clicks. -/
lemma countP_next_zero {l : List Ev} {c : Nat}
    (h : ∀ e ∈ l, stepIdx e = c) (hc : c ≠ 4) : l.countP isNextClickEv = 0 := by
  refine List.countP_eq_zero.mpr (fun a ha hpa => ?_)
  have h4 := (isNext_iff_idx a).mp hpa
  rw [h a ha] at h4
  exact hc h4

/-- A block whose events all sit at step index `c ≠ 3` has no filter
clicks. -/
lemma countP_filter_zero {l : List Ev} {c : Nat}
    (h : ∀ e ∈ l, stepIdx e = c) (hc : c ≠ 3) : l.countP isFilterClickEv = 0 := by
  refine List.countP_eq_zero.mpr (fun a ha hpa => ?_)
  have h3 := (isFilter_iff_idx a).mp hpa
  rw [h a ha] at h3
  exact hc h3

/-- Every event yielded by the pagination inner pass is a pagination click. -/
lemma pagInner_idx (iter n : Nat) :
    ∀ (l : List Elem) (i : Nat) (ca ad : Bool),
      ∀ e ∈ innerEvs (pagInner iter n l i ca ad), stepIdx e = 4 := by
  intro l
  induction l with
  | nil => intro i ca ad e he; simp [pagInner, innerEvs] at he
  | cons b rest ih =>
    intro i ca ad e he
    rw [pagInner] at he
    by_cases hd : pagIsDisabled b
    · rw [if_pos hd] at he; exact ih (i + 1) ca ad e he
    · rw [if_neg hd] at he
      by_cases hc : pagClickCond b
      · rw [if_pos hc] at he
        by_cases ht : b.clickThrows
        · rw [if_pos ht] at he; simp [innerEvs] at he
        · rw [if_neg ht] at he
          rcases hrec : pagInner iter n rest (i + 1) true false with
            ⟨evs, cks⟩ | ⟨evs, cks, ca2, ad2⟩ <;> rw [hrec] at he <;>
            simp only [innerEvs, List.mem_cons] at he <;>
            rcases he with he | he
          · subst he; rfl
          · exact ih (i + 1) true false e (by rw [hrec]; simpa [innerEvs] using he)
          · subst he; rfl
          · exact ih (i + 1) true false e (by rw [hrec]; simpa [innerEvs] using he)
      · rw [if_neg hc] at he; exact ih (i + 1) ca false e he

/-- The pagination inner pass clicks a sublist of the buttons it was given. -/
lemma pagInner_clicks_sublist (iter n : Nat) :
    ∀ (l : List Elem) (i : Nat) (ca ad : Bool),
      (innerClicks (pagInner iter n l i ca ad)).Sublist l := by
  intro l
  induction l with
  | nil => intro i ca ad; simp [pagInner, innerClicks]
  | cons b rest ih =>
    intro i ca ad
    rw [pagInner]
    by_cases hd : pagIsDisabled b
    · rw [if_pos hd]; exact (ih (i + 1) ca ad).cons b
    · rw [if_neg hd]
      by_cases hc : pagClickCond b
      · rw [if_pos hc]
        by_cases ht : b.clickThrows
        · rw [if_pos ht]; simp [innerClicks]
        · rw [if_neg ht]
          rcases hrec : pagInner iter n rest (i + 1) true false with
            ⟨evs, cks⟩ | ⟨evs, cks, ca2, ad2⟩
          · have hsub := ih (i + 1) true false
            rw [hrec] at hsub
            simp only [innerClicks] at hsub
            simpa [innerClicks] using hsub.cons₂ b
          · have hsub := ih (i + 1) true false
            rw [hrec] at hsub
            simp only [innerClicks] at hsub
            simpa [innerClicks] using hsub.cons₂ b
      · rw [if_neg hc]; exact (ih (i + 1) ca false).cons b

/-- When no button of the pass throws, the pagination inner pass does not
throw. -/
lemma pagInner_ok (iter n : Nat) :
    ∀ (l : List Elem) (i : Nat) (ca ad : Bool),
      (∀ b ∈ l, b.clickThrows = false) →
      exOk (pagInner iter n l i ca ad) = true := by
  intro l
  induction l with
  | nil => intro i ca ad _; rfl
  | cons b rest ih =>
    intro i ca ad h
    have hb : b.clickThrows = false := h b (List.mem_cons_self _ _)
    have hrest : ∀ x ∈ rest, x.clickThrows = false :=
      fun x hx => h x (List.mem_cons_of_mem _ hx)
    rw [pagInner]
    by_cases hd : pagIsDisabled b
    · rw [if_pos hd]; exact ih (i + 1) ca ad hrest
    · rw [if_neg hd]
      by_cases hc : pagClickCond b
      · rw [if_pos hc, if_neg (by simp [hb] : ¬(b.clickThrows = true))]
        rcases hrec : pagInner iter n rest (i + 1) true false with
          ⟨evs, cks⟩ | ⟨evs, cks, ca2, ad2⟩
        · have hko := ih (i + 1) true false hrest
          rw [hrec] at hko
          simp [exOk] at hko
        · rfl
      · rw [if_neg hc]; exact ih (i + 1) ca false hrest

/-- Every event yielded by the pagination while-loop is a pagination click. -/
lemma pagLoop_idx (q : Nat → TriQ) :
    ∀ (fuel iter : Nat), ∀ e ∈ (pagLoop q fuel iter).evs, stepIdx e = 4 := by
  intro fuel
  induction fuel with
  | zero => intro iter e he; simp [pagLoop] at he
  | succ f ih =>
    intro iter e he
    simp only [pagLoop] at he
    split at he
    · simp at he
    · rcases hrec : pagInner iter (uniqueNextButtons (q iter)).length
        (uniqueNextButtons (q iter)) 0 false true with
        ⟨evs, cks⟩ | ⟨evs, cks, ca, ad⟩ <;> rw [hrec] at he
      · simp only [] at he
        have hall := pagInner_idx iter (uniqueNextButtons (q iter)).length
          (uniqueNextButtons (q iter)) 0 false true e
        rw [hrec] at hall
        exact hall (by simpa [innerEvs] using he)
      · have hall := pagInner_idx iter (uniqueNextButtons (q iter)).length
          (uniqueNextButtons (q iter)) 0 false true e
        rw [hrec] at hall
        simp only [innerEvs] at hall
        simp only [] at he
        split at he
        · exact hall (by simpa using he)
        · split at he
          · exact hall (by simpa using he)
          · simp only [List.mem_append] at he
            rcases he with he | he
            · exact hall (by simpa using he)
            · exact ih (iter + 1) e (by simpa using he)

/-- The pagination while-loop enters at most `fuel` loop bodies. -/
lemma pagLoop_iters_le (q : Nat → TriQ) :
    ∀ (fuel iter : Nat), (pagLoop q fuel iter).iters ≤ fuel := by
  intro fuel
  induction fuel with
  | zero => intro iter; simp [pagLoop]
  | succ f ih =>
    intro iter
    simp only [pagLoop]
    split
    · simp
    · split
      · simp
      · split
        · simp
        · split
          · simp
          · have := ih (iter + 1)
            show 1 + (pagLoop q f (iter + 1)).iters ≤ f + 1
            omega

/-- When no queried pagination button throws, the pagination loop never
throws. -/
lemma pagLoop_noThrow {q : Nat → TriQ}
    (hq : ∀ k b, b ∈ (q k).allBtns → b.clickThrows = false) :
    ∀ (fuel iter : Nat), (pagLoop q fuel iter).threw = false := by
  intro fuel
  induction fuel with
  | zero => intro iter; rfl
  | succ f ih =>
    intro iter
    have hself : ∀ b ∈ uniqueNextButtons (q iter), b.clickThrows = false :=
      fun b hb => hq iter b (dedupAux_subset _ _ hb)
    have hok := pagInner_ok iter (uniqueNextButtons (q iter)).length
      (uniqueNextButtons (q iter)) 0 false true hself
    simp only [pagLoop]
    split
    · rfl
    · rcases hrec : pagInner iter (uniqueNextButtons (q iter)).length
        (uniqueNextButtons (q iter)) 0 false true with
        ⟨evs, cks⟩ | ⟨evs, cks, ca, ad⟩
      · rw [hrec] at hok; simp [exOk] at hok
      · simp only []
        split
        · rfl
        · split
          · rfl
          · show (pagLoop q f (iter + 1)).threw = false
            exact ih (iter + 1)

/-- On a query that always returns the same single enabled, clickable,
well-behaved button, the pagination loop clicks once per iteration for its
whole fuel, never throws, and uses every iteration. -/
lemma pagLoop_singleton {q : Nat → TriQ} {b : Elem}
    (hqk : ∀ k, q k = ⟨[b], [], []⟩)
    (hdis : pagIsDisabled b = false) (hcond : pagClickCond b = true)
    (hthr : b.clickThrows = false) :
    ∀ (fuel iter : Nat),
      (pagLoop q fuel iter).evs.countP isNextClickEv = fuel ∧
      (pagLoop q fuel iter).iters = fuel ∧
      (pagLoop q fuel iter).threw = false := by
  intro fuel
  induction fuel with
  | zero => intro iter; refine ⟨rfl, rfl, rfl⟩
  | succ f ih =>
    intro iter
    have hu : uniqueNextButtons (q iter) = [b] := by
      rw [hqk iter]
      simp [uniqueNextButtons, TriQ.allBtns, dedupAux]
    have hpi : pagInner iter 1 [b] 0 false true =
        Except.ok ([Ev.nextClick 1 1 (iter + 1)], [b], true, false) := by
      rw [pagInner, if_neg (by simp [hdis]), if_pos hcond,
        if_neg (by simp [hthr] : ¬(b.clickThrows = true))]
      rfl
    have hrec := ih (iter + 1)
    simp only [pagLoop, hu]
    rw [show ([b] : List Elem).length = 1 from rfl, hpi]
    simp only [List.isEmpty_cons, Bool.false_eq_true, if_false, Bool.not_true]
    refine ⟨?_, ?_, ?_⟩
    · show (Ev.nextClick 1 1 (iter + 1) :: (pagLoop q f (iter + 1)).evs).countP
        isNextClickEv = f + 1
      rw [List.countP_cons]
      simp [isNextClickEv, hrec.1]
    · show 1 + (pagLoop q f (iter + 1)).iters = f + 1
      have h2 := hrec.2.1
      omega
    · show (pagLoop q f (iter + 1)).threw = false
      exact hrec.2.2

/-- Every event yielded by the more-link loop is a more-link click. -/
lemma moreLoop_idx (sel : Nat → Option Elem) :
    ∀ (fuel k : Nat), ∀ e ∈ (moreLoop sel fuel k).evs, stepIdx e = 5 := by
  intro fuel
  induction fuel with
  | zero => intro k e he; simp [moreLoop] at he
  | succ f ih =>
    intro k e he
    simp only [moreLoop] at he
    split at he
    · simp at he
    · split at he
      · split at he
        · simp at he
        · simp only [List.mem_cons] at he
          rcases he with he | he
          · subst he; rfl
          · exact ih (k + 1) e he
      · simp at he

/-- The more-link loop clicks at most `fuel` times. -/
lemma moreLoop_iters_le (sel : Nat → Option Elem) :
    ∀ (fuel k : Nat), (moreLoop sel fuel k).iters ≤ fuel := by
  intro fuel
  induction fuel with
  | zero => intro k; simp [moreLoop]
  | succ f ih =>
    intro k
    simp only [moreLoop]
    split
    · simp
    · split
      · split
        · simp
        · have := ih (k + 1)
          show 1 + (moreLoop sel f (k + 1)).iters ≤ f + 1
          omega
      · simp

/-- When the more-link never throws, the more-link loop never throws. -/
lemma moreLoop_noThrow {sel : Nat → Option Elem}
    (h : ∀ k e, sel k = some e → e.clickThrows = false) :
    ∀ (fuel k : Nat), (moreLoop sel fuel k).threw = false := by
  intro fuel
  induction fuel with
  | zero => intro k; rfl
  | succ f ih =>
    intro k
    simp only [moreLoop]
    split
    · rfl
    next el heq =>
      split
      · rw [if_neg (by simp [h k el heq] : ¬(el.clickThrows = true))]
        show (moreLoop sel f (k + 1)).threw = false
        exact ih (k + 1)
      · rfl

/-- When neither loop throws, the run is the concatenation of the step
blocks, in source order, closed by the sentinel, and completes normally. -/
lemma runP_decomp (p : Page) (t1 t2 t3 t4 : Nat)
    (hpr : (pagLoop p.nextQueries 200 0).threw = false)
    (hmr : (moreLoop p.moreLink 100 0).threw = false) :
    (runP p t1 t2 t3 t4).1 =
      cookieStep p.cookieButton t1 ++ bannerStep p.bannerCookie t2 ++
      surveyStep p.surveyToggle t3 ++ (filterStep p.filterParent p.filterButtons t4).1 ++
      (pagLoop p.nextQueries 200 0).evs ++ (moreLoop p.moreLink 100 0).evs ++ [Ev.stat] ∧
    (runP p t1 t2 t3 t4).2 = true := by
  simp only [runP, hpr, hmr, Bool.false_eq_true, if_false]
  constructor
  · simp [List.append_assoc]
  · trivial

/-- When the clickUntilHidden target is present and shown at every tick, the
legacy interval is still active after any number of ticks, having clicked at
each one: the loop has no iteration cap and never terminates. -/
lemma cuhRun_const {sel : Nat → Option Elem}
    (h : ∀ k, cuhTick sel k = true) :
    ∀ n, cuhRun sel n = (n, true) := by
  intro n
  induction n with
  | zero => rfl
  | succ m ih => rw [cuhRun, ih, h m]; rfl

/-- On a singleton query whose element keeps a constant href, the
URL-tracking pagination variant clicks the element exactly once: the second
pass skips it, no click happens, and the loop exits. -/
lemma hrefLoop_spa {q : Nat → List Elem} {b : Elem} {u : String}
    (hq : ∀ k, q k = [b]) (hu : b.getAttr "href" = some u)
    (hv : (b.inViewport || b.offsetParentNonNull) = true) :
    ∀ (fuel iter : Nat), 2 ≤ fuel → hrefLoop q [] fuel iter = ([b], 2) := by
  intro fuel iter hfuel
  rcases fuel with _ | _ | f
  · exact absurd hfuel (by simp)
  · exact absurd hfuel (by simp)
  · have h1 : hrefInner [] [b] = ([b], [u], true) := by
      simp [hrefInner, hu, hv]
    have h2 : hrefInner [u] [b] = ([], [u], false) := by
      simp [hrefInner, hu]
    rw [hrefLoop, hq iter]
    simp only [List.isEmpty_cons, Bool.false_eq_true, if_false, h1]
    rw [hrefLoop, hq (iter + 1)]
    simp only [List.isEmpty_cons, Bool.false_eq_true, if_false, h2]
    rfl

/-- A block of events all at the same step index is internally ordered. -/
lemma pairwise_stepLe_const :
    ∀ (l : List Ev) (c : Nat), (∀ e ∈ l, stepIdx e = c) → l.Pairwise stepLe := by
  intro l
  induction l with
  | nil => intro c _; exact List.Pairwise.nil
  | cons x xs ih =>
    intro c h
    refine List.Pairwise.cons (fun y hy => ?_)
      (ih c (fun e he => h e (List.mem_cons_of_mem _ he)))
    show stepIdx x ≤ stepIdx y
    rw [h x (List.mem_cons_self _ _), h y (List.mem_cons_of_mem _ hy)]

/-- Prepending a block of step index `c` to an ordered suffix whose events
are all at index at least `c` keeps the whole list ordered. -/
lemma pairwise_stepLe_append {l1 l2 : List Ev} {c : Nat}
    (h1 : ∀ e ∈ l1, stepIdx e = c) (h2 : ∀ e ∈ l2, c ≤ stepIdx e)
    (p2 : l2.Pairwise stepLe) : (l1 ++ l2).Pairwise stepLe := by
  rw [List.pairwise_append]
  refine ⟨pairwise_stepLe_const l1 c h1, p2, fun a ha b hb => ?_⟩
  show stepIdx a ≤ stepIdx b
  rw [h1 a ha]
  exact h2 b hb

/-- Only the pagination loop contributes pagination click events to the run
trace. -/
lemma runP_countNext (p : Page) (t1 t2 t3 t4 : Nat) :
    (runP p t1 t2 t3 t4).1.countP isNextClickEv =
      (pagLoop p.nextQueries 200 0).evs.countP isNextClickEv := by
  have h0 := countP_next_zero (cookieStep_idx p.cookieButton t1) (by omega)
  have h1 := countP_next_zero (bannerStep_idx p.bannerCookie t2) (by omega)
  have h2 := countP_next_zero (surveyStep_idx p.surveyToggle t3) (by omega)
  have h3 := countP_next_zero (filterStep_idx p.filterParent p.filterButtons t4) (by omega)
  have h5 := countP_next_zero (moreLoop_idx p.moreLink 100 0) (by omega)
  simp only [runP]
  split
  · simp [List.countP_append, h0, h1, h2, h3]
  · split
    · simp [List.countP_append, h0, h1, h2, h3, h5]
    · simp [List.countP_append, List.countP_cons, h0, h1, h2, h3, h5, isNextClickEv]

/-- Only the filter step contributes filter click events to the run trace. -/
lemma runP_countFilter (p : Page) (t1 t2 t3 t4 : Nat) :
    (runP p t1 t2 t3 t4).1.countP isFilterClickEv =
      (filterStep p.filterParent p.filterButtons t4).1.countP isFilterClickEv := by
  have h0 := countP_filter_zero (cookieStep_idx p.cookieButton t1) (by omega)
  have h1 := countP_filter_zero (bannerStep_idx p.bannerCookie t2) (by omega)
  have h2 := countP_filter_zero (surveyStep_idx p.surveyToggle t3) (by omega)
  have h4 := countP_filter_zero (pagLoop_idx p.nextQueries 200 0) (by omega)
  have h5 := countP_filter_zero (moreLoop_idx p.moreLink 100 0) (by omega)
  simp only [runP]
  split
  · simp [List.countP_append, h0, h1, h2, h4]
  · split
    · simp [List.countP_append, h0, h1, h2, h4, h5]
    · simp [List.countP_append, List.countP_cons, h0, h1, h2, h4, h5, isFilterClickEv]

/-- Claim C3, counterexample.  The claim says the element-locator operation
returns an absent result rather than raising an exception when the selector
is never satisfied.  On the v3 code this is false: `waitUntilNode` THROWS
`new Error("Timeout waiting for element")` on timeout (modelled as
`Except.error`); there is no non-exceptional absent return value.  Shown at
the concrete input of a never-matching selector, timeout 5000 ms, start
time 0. -/
theorem C3_counterexample :
    waitUntilNode (fun _ => none) 5000 0 =
      Except.error "Timeout waiting for element" ∧
    exOk (waitUntilNode (fun _ => none) 5000 0) = false :=
  ⟨rfl, rfl⟩

/-- Claim C3, amended.  For every selector never satisfied within the
deadline, waitUntilNode raises the timeout exception (`Except.error`), and
every call site catches it: the cookie-consent step on such a selector
contributes no events and the run continues, so the timeout is handled by
the CALLER as a non-fatal outcome, not returned as an absent value by the
locator itself. -/
theorem C3_amended : ∀ (sel : Nat → Option Elem) (timeout t0 : Nat),
    (∀ t, sel t = none) →
    waitUntilNode sel timeout t0 = Except.error "Timeout waiting for element" ∧
    cookieStep sel t0 = [] := by
  intro sel timeout t0 h
  have hw := waitLoop_allNone h
  refine ⟨hw _ _, ?_⟩
  simp only [cookieStep, waitUntilNode, hw]

/-- Witness for C3_amended at a concrete never-matching selector. -/
theorem C3_amended_witness :
    waitUntilNode (fun _ => none) 3000 7 =
      Except.error "Timeout waiting for element" ∧
    cookieStep (fun _ => none) 7 = [] :=
  C3_amended (fun _ => none) 3000 7 (fun _ => rfl)

/-- Claim C5, counterexample.  The claim's clickability contract requires
opacity different from "0", but neither the filter check (v3 lines 117-132)
nor the pagination check (v3 lines 185-201) reads opacity: a fully
transparent element (opacity "0") passing every other check is treated as
clickable by both code paths, while the claimed contract says it is not. -/
theorem C5_counterexample :
    filterClickPred ghostElem = true ∧ pagClickPred ghostElem = true ∧
    specIsClickable ghostElem = false := by decide

/-- Claim C5, amended.  The code's effective clickability condition is:
display not "none", visibility not "hidden", not disabled (disabled class,
disabled attribute, aria-disabled="true", and — in the filter check only —
the disabled property, which the pagination check does not read), and in
the viewport or having an offsetParent — with NO opacity conjunct: both the
filter evaluation and the pagination evaluation are invariant under any
change of the element's opacity. -/
theorem C5_amended : ∀ (b : Elem) (s : String),
    filterClickPred b = amendedIsClickable b ∧
    pagClickPred b = amendedPagClickable b ∧
    filterClickPred { b with opacity := s } = filterClickPred b ∧
    pagClickPred { b with opacity := s } = pagClickPred b := by
  intro b s
  refine ⟨?_, ?_, rfl, rfl⟩
  · simp only [filterClickPred, amendedIsClickable, filterIsDisabled, filterIsClickable,
      styleIsVisible]
    cases hP : b.disabledProp <;> cases hA : b.hasAttr "disabled" <;>
      cases hR : (b.getAttr "aria-disabled" == some "true") <;>
      cases hC : b.classContains "disabled" <;>
      cases hD : (b.display != "none") <;> cases hV : (b.visibility != "hidden") <;>
      cases hIV : b.inViewport <;> cases hOP : b.offsetParentNonNull <;>
      simp [hP, hA, hR, hC, hD, hV, hIV, hOP]
  · simp only [pagClickPred, amendedPagClickable, pagIsDisabled, pagClickCond]
    cases hA : b.hasAttr "disabled" <;>
      cases hR : (b.getAttr "aria-disabled" == some "true") <;>
      cases hC : b.classContains "disabled" <;>
      cases hD : (b.display != "none") <;> cases hV : (b.visibility != "hidden") <;>
      cases hIV : b.inViewport <;> cases hOP : b.offsetParentNonNull <;>
      simp [hA, hR, hC, hD, hV, hIV, hOP]

/-- Claim C7, counterexample.  The claim says every repeating loop of the
engine has a finite hard iteration cap.  The legacy clickUntilHidden
(icaew-com-behaviors.js lines 85-101) has none: with a target that stays
present and shown, after 250 interval ticks (more than any iteration cap
appearing in the repository) the interval is still active and has clicked
250 times, and nothing in its state ever stops it. -/
theorem C7_counterexample :
    cuhRun (fun _ => some stickyLink) 250 = (250, true) :=
  cuhRun_const (by intro k; rfl) 250

/-- Claim C7, amended.  The v3 loops are capped — the pagination loop enters
at most 200 bodies and the more-link loop clicks at most 100 times, on every
page — but the legacy clickUntilHidden timer loop has no cap: whenever its
target is present and shown at every tick, it is still active after any
number of ticks, having clicked at each one. -/
theorem C7_amended : ∀ (p : Page) (sel : Nat → Option Elem) (n : Nat),
    (∀ k, cuhTick sel k = true) →
    (pagLoop p.nextQueries 200 0).iters ≤ 200 ∧
    (moreLoop p.moreLink 100 0).iters ≤ 100 ∧
    cuhRun sel n = (n, true) :=
  fun p sel n h =>
    ⟨pagLoop_iters_le p.nextQueries 200 0, moreLoop_iters_le p.moreLink 100 0,
      cuhRun_const h n⟩

/-- Witness for C7_amended on the empty page and an always-visible target. -/
theorem C7_amended_witness :
    (pagLoop plainPage.nextQueries 200 0).iters ≤ 200 ∧
    (moreLoop plainPage.moreLink 100 0).iters ≤ 100 ∧
    cuhRun (fun _ => some stickyLink) 3 = (3, true) :=
  C7_amended plainPage (fun _ => some stickyLink) 3 (by intro k; rfl)

/-- Claim C10, confirmed.  In every pagination iteration the elements
gathered from the three overlapping selectors are deduplicated by object
identity (Array.from(new Set(...))): the deduplicated list has no
duplicates yet keeps exactly the gathered elements, the elements clicked in
the iteration form a sublist of it, and hence any single DOM element —
however many selectors matched it — is clicked at most once in that
iteration. -/
theorem C10_dedup : ∀ (t : TriQ) (iter : Nat) (e : Elem),
    (uniqueNextButtons t).Nodup ∧
    (e ∈ uniqueNextButtons t ↔ e ∈ t.allBtns) ∧
    (pagIterClicks t iter).Sublist (uniqueNextButtons t) ∧
    (pagIterClicks t iter).count e ≤ 1 := by
  intro t iter e
  have hnd := dedupAux_nodup t.allBtns []
  have hsub : (pagIterClicks t iter).Sublist (uniqueNextButtons t) :=
    pagInner_clicks_sublist iter (uniqueNextButtons t).length
      (uniqueNextButtons t) 0 false true
  refine ⟨hnd, ⟨fun h => dedupAux_subset _ _ h,
    fun h => dedupAux_mem _ _ h (by simp)⟩, hsub, ?_⟩
  have hcl : (pagIterClicks t iter).Nodup := List.Nodup.sublist hsub hnd
  exact List.nodup_iff_count_le_one.mp hcl e

/-- Claim C1, counterexample.  The claim says a pagination "Next" control
whose dedup key never changes is clicked at most once before a dedup
tracker suppresses further clicks.  The v3 pagination loop has no dedup
tracker of any kind: on a page whose query returns the same visible,
enabled control (constant href) on every iteration, the run clicks it far
more than once (once per iteration, 200 times), although the run does
terminate. -/
theorem C1_counterexample :
    1 < (runP spaPage 0 0 0 0).1.countP isNextClickEv ∧
    (runP spaPage 0 0 0 0).2 = true := by decide

/-- Claim C1, amended.  In the v3 pagination loop there is no dedup tracker:
a never-changing, enabled, visible, well-behaved "Next" control is clicked
once per iteration, exactly 200 (maxIterations) times, and the traversal
terminates exactly at its maxIterations cap.  The "clicked at most once"
behaviour belongs to the URL-tracking pagination variant embedded in the
repository README (clickedUrls Set): there, the same control is clicked
exactly once — the second pass skips its href, clickedAny stays false and
the loop exits — well within that variant's maxIterations of 50. -/
theorem C1_amended : ∀ (p : Page) (b : Elem) (q : Nat → List Elem) (u : String)
    (t1 t2 t3 t4 : Nat),
    (∀ k, p.nextQueries k = ⟨[b], [], []⟩) →
    pagIsDisabled b = false → pagClickCond b = true → b.clickThrows = false →
    (∀ k, q k = [b]) → b.getAttr "href" = some u →
    ((runP p t1 t2 t3 t4).1.countP isNextClickEv = 200 ∧
      (pagLoop p.nextQueries 200 0).iters = 200) ∧
    hrefLoop q [] 50 0 = ([b], 2) := by
  intro p b q u t1 t2 t3 t4 hq hdis hcond hthr hq2 hu
  have hsing := pagLoop_singleton hq hdis hcond hthr 200 0
  have hv : (b.inViewport || b.offsetParentNonNull) = true := by
    have h := hcond
    simp only [pagClickCond, Bool.and_eq_true] at h
    tauto
  refine ⟨⟨?_, hsing.2.1⟩, hrefLoop_spa hq2 hu hv 50 0 (by omega)⟩
  rw [runP_countNext]
  exact hsing.1

/-- Witness for C1_amended at the single-page-app fixture. -/
theorem C1_amended_witness :
    (((runP spaPage 0 0 0 0).1.countP isNextClickEv = 200 ∧
      (pagLoop spaPage.nextQueries 200 0).iters = 200) ∧
    hrefLoop (fun _ => [spaBtn]) [] 50 0 = ([spaBtn], 2)) :=
  C1_amended spaPage spaBtn (fun _ => [spaBtn]) "/search?page=2" 0 0 0 0
    (fun _ => rfl) (by decide) (by decide) rfl (fun _ => rfl) (by decide)

/-- Claim C4, counterexample.  The claim says the pagination loop terminates
via a stagnation guard once the clickable-element count is unchanged for 2
consecutive iterations.  The v3 loop has no such guard: on a page whose
clickable-"Next" count is unchanged across every pair of consecutive
iterations (always 1), the loop still enters all 200 iteration bodies
instead of stopping after 2. -/
theorem C4_counterexample :
    stagUnchanged = true ∧ (pagLoop stagPage.nextQueries 200 0).iters = 200 := by
  constructor
  · decide
  · exact (pagLoop_singleton (fun _ => rfl) (by decide) (by decide) rfl 200 0).2.1

/-- Claim C4, amended.  The v3 pagination loop has no stagnation guard:
whenever the query keeps returning the same single enabled, clickable,
well-behaved button — so the clickable count is unchanged between every
iteration and its successor — the loop does not terminate early but enters
all 200 (maxIterations) iteration bodies; its only exits are an empty
query, all buttons disabled, no button clicked, or the iteration cap. -/
theorem C4_amended : ∀ (q : Nat → TriQ) (b : Elem) (k : Nat),
    (∀ j, q j = ⟨[b], [], []⟩) →
    pagIsDisabled b = false → pagClickCond b = true → b.clickThrows = false →
    clickableNextCount q k = clickableNextCount q (k + 1) ∧
    (pagLoop q 200 0).iters = 200 := by
  intro q b k hq hdis hcond hthr
  constructor
  · rw [clickableNextCount, clickableNextCount, hq k, hq (k + 1)]
  · exact (pagLoop_singleton hq hdis hcond hthr 200 0).2.1

/-- Witness for C4_amended at the stagnation fixture, iteration pair (7, 8). -/
theorem C4_amended_witness :
    clickableNextCount stagPage.nextQueries 7 =
      clickableNextCount stagPage.nextQueries 8 ∧
    (pagLoop stagPage.nextQueries 200 0).iters = 200 :=
  C4_amended stagPage.nextQueries stagBtn 7 (fun _ => rfl) (by decide) (by decide) rfl

/-- Claim C2, counterexample.  The claim says every per-step failure is
caught and the run always ends by emitting the 'icaew-stat' sentinel.  The
v3 pagination loop has no try/catch: on a page whose only interactive
element is an enabled, visible pagination control whose click() throws, the
exception escapes the generator — the run does not complete and the
sentinel is never yielded. -/
theorem C2_counterexample :
    (runP throwPage 0 0 0 0).2 = false ∧
    Ev.stat ∉ (runP throwPage 0 0 0 0).1 := by decide

/-- Claim C2, amended.  Failures of the consent, banner, survey and filter
steps (locator timeout or click exception) are caught and do not abort the
later steps, and locator timeouts are non-fatal everywhere; but a click
exception inside the pagination or more-link loops propagates and aborts
the run without the sentinel.  Whenever no pagination-queried element and
no more-link element throws on click, the run completes normally and its
last progress event is the 'icaew-stat' sentinel. -/
theorem C2_amended : ∀ (p : Page) (t1 t2 t3 t4 : Nat),
    NoPagThrow p → NoMoreThrow p →
    (runP p t1 t2 t3 t4).2 = true ∧
    (runP p t1 t2 t3 t4).1.getLast? = some Ev.stat := by
  intro p t1 t2 t3 t4 hnp hnm
  have hpr := pagLoop_noThrow hnp 200 0
  have hmr := moreLoop_noThrow hnm 100 0
  have hd := runP_decomp p t1 t2 t3 t4 hpr hmr
  refine ⟨hd.2, ?_⟩
  rw [hd.1]
  simp [List.getLast?_append]

/-- Witness for C2_amended on a page whose filter button throws (the
exception is caught by the filter step) and which has no pagination or
more-link elements at all: the hypotheses hold vacuously and the run still
ends with the sentinel. -/
theorem C2_amended_witness :
    (runP isoPage 0 0 0 0).2 = true ∧
    (runP isoPage 0 0 0 0).1.getLast? = some Ev.stat :=
  C2_amended isoPage 0 0 0 0
    (by intro k b hb; simp [isoPage, TriQ.allBtns] at hb)
    (by intro k e he; simp [isoPage] at he)

/-- Claim C8, confirmed.  For a page fixture with a filter panel, when no
button throws and the buttons are distinct DOM nodes, the v3 filter step
clicks exactly the buttons satisfying its click condition — any such button
exactly once — and the run emits exactly as many filter progress events as
there are clickable buttons. -/
theorem C8_filter : ∀ (p : Page) (t1 t2 t3 t4 : Nat) (par b : Elem),
    (∀ t, p.filterParent t = some par) →
    (∀ x ∈ p.filterButtons, x.clickThrows = false) →
    p.filterButtons.Nodup →
    b ∈ p.filterButtons → filterClickPred b = true →
    (filterStep p.filterParent p.filterButtons t4).2 =
      p.filterButtons.filter filterClickPred ∧
    (filterStep p.filterParent p.filterButtons t4).2.count b = 1 ∧
    (runP p t1 t2 t3 t4).1.countP isFilterClickEv =
      (p.filterButtons.filter filterClickPred).length := by
  intro p t1 t2 t3 t4 par b hpar hthr hnd hb hpred
  have hws : waitUntilNode p.filterParent 5000 t4 = Except.ok par :=
    waitLoop_first (by decide) (hpar t4)
  have hfs : filterStep p.filterParent p.filterButtons t4 =
      filterLoopGo p.filterButtons.length p.filterButtons 0 := by
    simp only [filterStep, hws]
  have hng := filterLoopGo_noThrow p.filterButtons.length p.filterButtons 0 hthr
  refine ⟨?_, ?_, ?_⟩
  · rw [hfs]; exact hng.1
  · rw [hfs, hng.1]
    exact List.count_eq_one_of_mem (List.Nodup.filter _ hnd)
      (List.mem_filter.mpr ⟨hb, hpred⟩)
  · rw [runP_countFilter, hfs]
    have hall : ∀ e ∈ (filterLoopGo p.filterButtons.length p.filterButtons 0).1,
        isFilterClickEv e = true := fun e he =>
      (isFilter_iff_idx e).mpr
        (filterLoopGo_idx p.filterButtons.length p.filterButtons 0 e he)
    exact (List.countP_eq_length.mpr hall).trans hng.2

/-- Witness for C8_filter on a three-button panel with one disabled button. -/
theorem C8_filter_witness :
    ((filterStep filterPage.filterParent filterPage.filterButtons 0).2 =
      filterPage.filterButtons.filter filterClickPred ∧
    (filterStep filterPage.filterParent filterPage.filterButtons 0).2.count fBtn1 = 1 ∧
    (runP filterPage 0 0 0 0).1.countP isFilterClickEv =
      (filterPage.filterButtons.filter filterClickPred).length) :=
  C8_filter filterPage 0 0 0 0 filterParentEl fBtn1 (fun _ => rfl) (by decide)
    (by decide) (by decide) (by decide)

/-- Claim C9, confirmed.  On a static page fixture — one whose waited-for
selectors are time-invariant; the iteration-indexed queries are fixed by the
page itself — two runs of the engine, whatever the wall-clock times of
their polls, produce the same outcome and in particular the identical
sequence of progress messages: the run is deterministic given a fixed DOM. -/
theorem C9_deterministic : ∀ (p : Page) (t1 t2 t3 t4 s1 s2 s3 s4 : Nat),
    StaticWaits p →
    runP p t1 t2 t3 t4 = runP p s1 s2 s3 s4 ∧
    (runP p t1 t2 t3 t4).1.map Ev.msg = (runP p s1 s2 s3 s4).1.map Ev.msg := by
  intro p t1 t2 t3 t4 s1 s2 s3 s4 hs
  have hc : cookieStep p.cookieButton t1 = cookieStep p.cookieButton s1 := by
    simp only [cookieStep, waitUntilNode]
    rw [waitLoop_static hs.1 _ t1 s1]
  have hbn : bannerStep p.bannerCookie t2 = bannerStep p.bannerCookie s2 := by
    simp only [bannerStep, waitUntilNode]
    rw [waitLoop_static hs.2.1 _ t2 s2]
  have hsv : surveyStep p.surveyToggle t3 = surveyStep p.surveyToggle s3 := by
    simp only [surveyStep, waitUntilNode]
    rw [waitLoop_static hs.2.2.1 _ t3 s3]
  have hf : filterStep p.filterParent p.filterButtons t4 =
      filterStep p.filterParent p.filterButtons s4 := by
    simp only [filterStep, waitUntilNode]
    rw [waitLoop_static hs.2.2.2 _ t4 s4]
  have heq : runP p t1 t2 t3 t4 = runP p s1 s2 s3 s4 := by
    simp only [runP, hc, hbn, hsv, hf]
  exact ⟨heq, by rw [heq]⟩

/-- Witness for C9_deterministic: the rich static fixture run at two
different sets of poll start times. -/
theorem C9_deterministic_witness :
    runP richPage 0 0 0 0 = runP richPage 1 2 3 4 ∧
    (runP richPage 0 0 0 0).1.map Ev.msg = (runP richPage 1 2 3 4).1.map Ev.msg :=
  C9_deterministic richPage 0 0 0 0 1 2 3 4
    ⟨fun _ _ => rfl, fun _ _ => rfl, fun _ _ => rfl, fun _ _ => rfl⟩

/-- Claim C6, counterexample.  The claim says the orchestrator attempts a
chart-menus step after "load more".  The v3 run has no chart-menu step at
all: on a static fixture exercising every step it has — and whose DOM also
contains a chart-menu button — the complete trace holds one event per
step present and no chart-menu event whatsoever. -/
theorem C6_counterexample :
    (runP richPage 0 0 0 0).1 =
      [Ev.cookie, Ev.banner, Ev.survey, Ev.filterClick 1 1, Ev.nextClick 1 1 1,
        Ev.moreClick 1, Ev.stat] ∧
    richPage.chartMenus = [chartBtn] ∧
    (runP richPage 0 0 0 0).1.countP isChartClickEv = 0 := by decide

/-- Claim C6, amended.  The v3 run executes exactly six steps strictly in
the fixed order consent dialog, secondary banner, survey prompt, dynamic
filter buttons, pagination, "load more", then the terminal sentinel — the
trace decomposes into these blocks and its events are monotone in step
order — and there is no chart-menus step (chart menus appear only in a
different variant embedded in the repository README). -/
theorem C6_amended : ∀ (p : Page) (t1 t2 t3 t4 : Nat),
    NoPagThrow p → NoMoreThrow p →
    (runP p t1 t2 t3 t4).1 =
      cookieStep p.cookieButton t1 ++ bannerStep p.bannerCookie t2 ++
      surveyStep p.surveyToggle t3 ++ (filterStep p.filterParent p.filterButtons t4).1 ++
      (pagLoop p.nextQueries 200 0).evs ++ (moreLoop p.moreLink 100 0).evs ++ [Ev.stat] ∧
    (runP p t1 t2 t3 t4).1.Pairwise stepLe := by
  intro p t1 t2 t3 t4 hnp hnm
  have hpr := pagLoop_noThrow hnp 200 0
  have hmr := moreLoop_noThrow hnm 100 0
  have hd := runP_decomp p t1 t2 t3 t4 hpr hmr
  refine ⟨hd.1, ?_⟩
  rw [hd.1]
  have hstat : ∀ e ∈ [Ev.stat], 5 ≤ stepIdx e := by
    intro e he
    simp only [List.mem_singleton] at he
    subst he
    simp [stepIdx]
  have p6 : List.Pairwise stepLe [Ev.stat] := by simp
  have p5 : ((moreLoop p.moreLink 100 0).evs ++ [Ev.stat]).Pairwise stepLe :=
    pairwise_stepLe_append (moreLoop_idx p.moreLink 100 0) hstat p6
  have b5 : ∀ e ∈ (moreLoop p.moreLink 100 0).evs ++ [Ev.stat], 4 ≤ stepIdx e := by
    intro e he
    rcases List.mem_append.mp he with h | h
    · rw [moreLoop_idx p.moreLink 100 0 e h]; omega
    · have := hstat e h; omega
  have p4 : ((pagLoop p.nextQueries 200 0).evs ++
      ((moreLoop p.moreLink 100 0).evs ++ [Ev.stat])).Pairwise stepLe :=
    pairwise_stepLe_append (pagLoop_idx p.nextQueries 200 0) b5 p5
  have b4 : ∀ e ∈ (pagLoop p.nextQueries 200 0).evs ++
      ((moreLoop p.moreLink 100 0).evs ++ [Ev.stat]), 3 ≤ stepIdx e := by
    intro e he
    rcases List.mem_append.mp he with h | h
    · rw [pagLoop_idx p.nextQueries 200 0 e h]; omega
    · have := b5 e h; omega
  have p3 : ((filterStep p.filterParent p.filterButtons t4).1 ++
      ((pagLoop p.nextQueries 200 0).evs ++
        ((moreLoop p.moreLink 100 0).evs ++ [Ev.stat]))).Pairwise stepLe :=
    pairwise_stepLe_append (filterStep_idx p.filterParent p.filterButtons t4) b4 p4
  have b3 : ∀ e ∈ (filterStep p.filterParent p.filterButtons t4).1 ++
      ((pagLoop p.nextQueries 200 0).evs ++
        ((moreLoop p.moreLink 100 0).evs ++ [Ev.stat])), 2 ≤ stepIdx e := by
    intro e he
    rcases List.mem_append.mp he with h | h
    · rw [filterStep_idx p.filterParent p.filterButtons t4 e h]; omega
    · have := b4 e h; omega
  have p2 : (surveyStep p.surveyToggle t3 ++
      ((filterStep p.filterParent p.filterButtons t4).1 ++
        ((pagLoop p.nextQueries 200 0).evs ++
          ((moreLoop p.moreLink 100 0).evs ++ [Ev.stat])))).Pairwise stepLe :=
    pairwise_stepLe_append (surveyStep_idx p.surveyToggle t3) b3 p3
  have b2 : ∀ e ∈ surveyStep p.surveyToggle t3 ++
      ((filterStep p.filterParent p.filterButtons t4).1 ++
        ((pagLoop p.nextQueries 200 0).evs ++
          ((moreLoop p.moreLink 100 0).evs ++ [Ev.stat]))), 1 ≤ stepIdx e := by
    intro e he
    rcases List.mem_append.mp he with h | h
    · rw [surveyStep_idx p.surveyToggle t3 e h]; omega
    · have := b3 e h; omega
  have p1 : (bannerStep p.bannerCookie t2 ++
      (surveyStep p.surveyToggle t3 ++
        ((filterStep p.filterParent p.filterButtons t4).1 ++
          ((pagLoop p.nextQueries 200 0).evs ++
            ((moreLoop p.moreLink 100 0).evs ++ [Ev.stat]))))).Pairwise stepLe :=
    pairwise_stepLe_append (bannerStep_idx p.bannerCookie t2) b2 p2
  have b1 : ∀ e ∈ bannerStep p.bannerCookie t2 ++
      (surveyStep p.surveyToggle t3 ++
        ((filterStep p.filterParent p.filterButtons t4).1 ++
          ((pagLoop p.nextQueries 200 0).evs ++
            ((moreLoop p.moreLink 100 0).evs ++ [Ev.stat])))), 0 ≤ stepIdx e :=
    fun e _ => Nat.zero_le _
  have p0 := pairwise_stepLe_append (cookieStep_idx p.cookieButton t1) b1 p1
  simp only [List.append_assoc]
  exact p0

/-- Witness for C6_amended on the empty page. -/
theorem C6_amended_witness :
    ((runP plainPage 0 0 0 0).1 =
      cookieStep plainPage.cookieButton 0 ++ bannerStep plainPage.bannerCookie 0 ++
      surveyStep plainPage.surveyToggle 0 ++
      (filterStep plainPage.filterParent plainPage.filterButtons 0).1 ++
      (pagLoop plainPage.nextQueries 200 0).evs ++
      (moreLoop plainPage.moreLink 100 0).evs ++ [Ev.stat] ∧
    (runP plainPage 0 0 0 0).1.Pairwise stepLe) :=
  C6_amended plainPage 0 0 0 0
    (by intro k b hb; simp [plainPage, TriQ.allBtns] at hb)
    (by intro k e he; simp [plainPage] at he)
